import Mathlib

/-!
Shallow embedding of the Shadowserver api_utils report pipeline:
`report-manager.py`, `cef/shadowserver_cef_logger.py` and
`elasticsearch/shadowserver_ecs_logger.py`.

Python dictionaries are modelled as association lists with in-place
update (a key that is present keeps its position, a fresh key is
appended), preserving insertion order; the filesystem is modelled as an
association list from path to file size.
-/

namespace ApiUtils

/-- Python dict lookup on an association list (keys are unique in a
Python dict; first match). -/
def dictGet {α : Type} : List (String × α) → String → Option α
  | [], _ => none
  | (k, v) :: rest, key => if k = key then some v else dictGet rest key

/-- Python dict assignment `d[k] = v`: replace in place when the key is
present, append otherwise. -/
def dictSet {α : Type} : List (String × α) → String → α → List (String × α)
  | [], k, v => [(k, v)]
  | (k', v') :: rest, k, v =>
      if k' = k then (k', v) :: rest else (k', v') :: dictSet rest k v

/-- Values stored in an ECS event dictionary: strings, string lists
(tags) and nested string dictionaries (labels). -/
inductive EValue : Type where
  | str : String → EValue
  | list : List String → EValue
  | dict : List (String × String) → EValue
deriving DecidableEq, Repr

/-- An ECS event under construction: a Python dict from output field
name to value. -/
abbrev Event := List (String × EValue)

/-- Splits a character list at every character satisfying the
predicate, keeping empty pieces; the structural core of Python's
`re.split` on a single-character class and of `str.split(',')`. -/
def splitChars (p : Char → Bool) : List Char → List (List Char)
  | [] => [[]]
  | c :: rest =>
      if p c then [] :: splitChars p rest
      else
        match splitChars p rest with
        | [] => [[c]]
        | g :: gs => (c :: g) :: gs

/-- Embeds Python's `value.replace(old, new)` for a single-character
pattern: every occurrence of `a` becomes `b`. -/
def replaceChar (s : String) (a b : Char) : String :=
  String.mk (s.data.map (fun c => if c = a then b else c))

/-- Embeds `set_timestamp` (shadowserver_ecs_logger.py lines 41-49):
`event['timestamp'] = value.replace(' ', 'T')+'Z'`. -/
def set_timestamp (event : Event) (_field value : String) : Event :=
  dictSet event "timestamp" (EValue.str (replaceChar value ' ' 'T' ++ "Z"))

/-- Embeds `re.split('[,;]', value)`: split at every comma or
semicolon, keeping empty pieces. -/
def splitTags (value : String) : List String :=
  (splitChars (fun c => c = ',' || c = ';') value.data).map String.mk

/-- Embeds `set_tags` (shadowserver_ecs_logger.py lines 52-60):
`event['tags'] = re.split('[,;]', value)`. -/
def set_tags (event : Event) (_field value : String) : Event :=
  dictSet event "tags" (EValue.list (splitTags value))

/-- Embeds `set_labels` (shadowserver_ecs_logger.py lines 63-77).  When
`labels` is absent it is first set to `{}`; then
`event['labels'][args[0]] = value` runs under `try/except: pass`, so an
empty argument list or a non-dict `labels` value leaves the event as it
stands at that point. -/
def set_labels (event : Event) (_field value : String) (args : List String) : Event :=
  match dictGet event "labels", args with
  | none, [] => dictSet event "labels" (EValue.dict [])
  | none, a :: _ => dictSet event "labels" (EValue.dict (dictSet [] a value))
  | some (EValue.dict _), [] => event
  | some (EValue.dict d), a :: _ => dictSet event "labels" (EValue.dict (dictSet d a value))
  | some _, _ => event

/-- Embeds the first directive regular expression of `_stream_events`:
`re.match("^\&([^\(]+)\(([^\)]+)\)", mapped)`, returning the function
name and the argument list `m.groups()[1].split(',')`. -/
def parseDirectiveArgs (s : String) : Option (String × List String) :=
  match s.data with
  | '&' :: rest =>
      let func := rest.takeWhile (fun c => c != '(')
      if func = [] then none
      else
        match rest.drop func.length with
        | '(' :: rest2 =>
            let argstr := rest2.takeWhile (fun c => c != ')')
            if argstr = [] then none
            else
              match rest2.drop argstr.length with
              | ')' :: _ =>
                  some (String.mk func, (splitChars (fun c => c = ',') argstr).map String.mk)
              | _ => none
        | _ => none
  | _ => none

/-- Embeds the second directive regular expression of `_stream_events`:
`re.match("^\&([^\(]+)", mapped)`. -/
def parseDirective (s : String) : Option String :=
  match s.data with
  | '&' :: rest =>
      let func := rest.takeWhile (fun c => c != '(')
      if func = [] then none else some (String.mk func)
  | _ => none

/-- Embeds the target resolution of `_stream_events`
(shadowserver_ecs_logger.py lines 236-243): start from
`extra.<field>`, replace by the `type.field` entry when present, then
replace by the bare `field` entry when present (both `if`s run, so a
bare entry overrides a type-qualified one). -/
def resolveMapped (map : List (String × String)) (rtype field : String) : String :=
  let mapped0 := "extra." ++ field
  let mapped1 :=
    match dictGet map (rtype ++ "." ++ field) with
    | some v => v
    | none => mapped0
  match dictGet map field with
  | some v => v
  | none => mapped1

/-- Embeds the per-field body of the row loop of `_stream_events`
(shadowserver_ecs_logger.py lines 235-257).  The registered function
set is `{timestamp, labels, tags}`.  Calling `set_timestamp` or
`set_tags` through the argument-carrying directive form, or
`set_labels` through the bare form, passes the wrong number of Python
arguments and raises `TypeError`, modelled as `Except.error`. -/
def processField (map : List (String × String)) (rtype : String) (event : Event)
    (field value : String) : Except String Event :=
  if value = "" then Except.ok event
  else
    let mapped := resolveMapped map rtype field
    match parseDirectiveArgs mapped with
    | some (func, args) =>
        if func = "timestamp" then Except.error "TypeError: set_timestamp takes 3 arguments"
        else if func = "labels" then Except.ok (set_labels event field value args)
        else if func = "tags" then Except.error "TypeError: set_tags takes 3 arguments"
        else Except.ok event
    | none =>
        match parseDirective mapped with
        | some func =>
            if func = "timestamp" then Except.ok (set_timestamp event field value)
            else if func = "labels" then Except.error "TypeError: set_labels takes 4 arguments"
            else if func = "tags" then Except.ok (set_tags event field value)
            else Except.ok event
        | none => Except.ok (dictSet event mapped (EValue.str value))

/-- Embeds one iteration of the row loop of `_stream_events`
(shadowserver_ecs_logger.py lines 232-259): fold the fields in CSV
column order, then set `data_stream.dataset` to the report type. -/
def processRow (map : List (String × String)) (rtype : String)
    (row : List (String × String)) : Except String Event :=
  (row.foldlM (fun e fv => processField map rtype e fv.1 fv.2) ([] : Event)).map
    (fun e => dictSet e "data_stream.dataset" (EValue.str rtype))

/-- One entry of the `reports/list` API response. -/
structure Report : Type where
  id : String
  file : String
  type : String
  timestamp : String
deriving DecidableEq, Repr

/-- A directory of report files, as an association list from file name
to file size in bytes. -/
abbrev FS := List (String × Nat)

/-- Embeds `os.path.exists` on the modelled directory. -/
def pathExists (fs : FS) (p : String) : Bool :=
  fs.any (fun e => e.1 = p)

/-- Embeds writing a file: create or overwrite `p` with `n` bytes. -/
def setFS (fs : FS) (p : String) (n : Nat) : FS :=
  dictSet fs p n

/-- Embeds `os.unlink`/`os.rename` source removal: drop the entry at
`p`. -/
def removeFS : FS → String → FS
  | [], _ => []
  | e :: rest, p => if e.1 = p then removeFS rest p else e :: removeFS rest p

/-- Embeds `os.path.getsize`. -/
def getSize (fs : FS) (p : String) : Option Nat :=
  dictGet fs p

/-- Outcome of one `urlretrieve` call: it either returns normally
having written `n` bytes, or raises after writing a part of the file,
or raises without having created the file. -/
inductive FetchOut : Type where
  | ok : Nat → FetchOut
  | errAfterWrite : Nat → FetchOut
  | errNoWrite : FetchOut
deriving DecidableEq, Repr

/-- Embeds `ReportManager._download` (report-manager.py lines
198-219).  The destination is skipped when it already exists;
otherwise the fetch writes to the dot-prefixed temporary name
`"." + file`, and only a non-zero temporary is renamed onto the
destination.  Every exception is caught and logged, so the call never
propagates one.  Returns the updated directory and whether the
download counted (`self.count += 1`). -/
def rmDownload (fo : FetchOut) (r : Report) (fs : FS) : FS × Bool :=
  if pathExists fs r.file then (fs, false)
  else
    match fo with
    | FetchOut.ok 0 => (setFS fs ("." ++ r.file) 0, false)
    | FetchOut.ok (n + 1) =>
        (setFS (removeFS (setFS fs ("." ++ r.file) (n + 1)) ("." ++ r.file)) r.file (n + 1), true)
    | FetchOut.errAfterWrite k => (setFS fs ("." ++ r.file) k, false)
    | FetchOut.errNoWrite => (fs, false)

/-- Embeds `_download` of shadowserver_cef_logger.py (lines 278-293)
and shadowserver_ecs_logger.py (lines 293-308), whose bodies are
identical: `urlretrieve` writes straight to the final `path`; the
status is true only for a non-zero size; on an exception the handler
runs `os.unlink(path)`, which itself raises `FileNotFoundError` when
the fetch never created the file.  Returns the updated directory, the
status, and whether an exception propagated out of `_download`. -/
def loggerDownload (fo : FetchOut) (path : String) (fs : FS) : FS × Bool × Bool :=
  match fo with
  | FetchOut.ok 0 => (setFS fs path 0, false, false)
  | FetchOut.ok (n + 1) => (setFS fs path (n + 1), true, false)
  | FetchOut.errAfterWrite k => (removeFS (setFS fs path k) path, false, false)
  | FetchOut.errNoWrite => (fs, false, true)

/-- Embeds the `types` allowlist test of both loggers' `run`: with no
configured filter every report passes, otherwise
`report['type'] in types`. -/
def passesFilter (types : Option (List String)) (r : Report) : Bool :=
  match types with
  | some ts => ts.contains r.type
  | none => true

/-- Result of one logger sync cycle over a report listing: the final
directory state, the reports for which `_download` was invoked, the
reports passed to `_stream_events`, and whether the cycle died on a
propagated exception. -/
structure SyncResult : Type where
  fs : FS
  dl : List Report
  tr : List Report
  fatal : Bool
deriving DecidableEq, Repr

/-- Embeds the per-report loop of `ShadowserverCEFLogger.run`
(shadowserver_cef_logger.py lines 165-181): skip a report whose type
fails the configured `types` filter, skip when the local path exists,
skip with a warning when the type has no mapping entry, otherwise
download; on success stream the events and truncate the file to zero
bytes.  `mapping` lists the report types present in the mapping table
and `fetch` gives each report's network outcome. -/
def cefRunCycle (mapping : List String) (types : Option (List String))
    (fetch : Report → FetchOut) : List Report → FS → SyncResult
  | [], fs => ⟨fs, [], [], false⟩
  | r :: rest, fs =>
      if !(passesFilter types r) then
        cefRunCycle mapping types fetch rest fs
      else if pathExists fs r.file then
        cefRunCycle mapping types fetch rest fs
      else if !(mapping.contains r.type) then
        cefRunCycle mapping types fetch rest fs
      else
        match loggerDownload (fetch r) r.file fs with
        | (fs1, true, _) =>
            let res := cefRunCycle mapping types fetch rest (setFS fs1 r.file 0)
            ⟨res.fs, r :: res.dl, r :: res.tr, res.fatal⟩
        | (fs1, false, false) =>
            let res := cefRunCycle mapping types fetch rest fs1
            ⟨res.fs, r :: res.dl, res.tr, res.fatal⟩
        | (fs1, false, true) => ⟨fs1, [r], [], true⟩

/-- Embeds the per-report loop of `ShadowserverECSLogger.run`
(shadowserver_ecs_logger.py lines 174-185).  Identical to the CEF
loop except that there is no mapping-table check: the mapping
dictionary `_map` (`self.mapping['map']`) is consulted only inside
`_stream_events`, never for control flow, so every report that passes
the `types` filter and has no local file is downloaded, and streamed
on success. -/
def ecsRunCycle (_map : List (String × String)) (types : Option (List String))
    (fetch : Report → FetchOut) : List Report → FS → SyncResult
  | [], fs => ⟨fs, [], [], false⟩
  | r :: rest, fs =>
      if !(passesFilter types r) then
        ecsRunCycle _map types fetch rest fs
      else if pathExists fs r.file then
        ecsRunCycle _map types fetch rest fs
      else
        match loggerDownload (fetch r) r.file fs with
        | (fs1, true, _) =>
            let res := ecsRunCycle _map types fetch rest (setFS fs1 r.file 0)
            ⟨res.fs, r :: res.dl, r :: res.tr, res.fatal⟩
        | (fs1, false, false) =>
            let res := ecsRunCycle _map types fetch rest fs1
            ⟨res.fs, r :: res.dl, res.tr, res.fatal⟩
        | (fs1, false, true) => ⟨fs1, [r], [], true⟩

/-- Result of the report-manager download loop: final directory state,
reports for which `_download` was invoked, and whether `die` aborted
the run. -/
structure RMResult : Type where
  fs : FS
  dl : List Report
  fatal : Bool
deriving DecidableEq, Repr

/-- Embeds the `min_disk_free` configuration read of
`ReportManager.__init__` (report-manager.py line 139):
`int(config.get(..., fallback=512)) * 1024 * 1024`. -/
def rmThreshold (minDiskFree : Option Nat) : Nat :=
  minDiskFree.getD 512 * 1024 * 1024

/-- Embeds the download loop of `ReportManager._sync`
(report-manager.py lines 246-251): before each report,
`shutil.disk_usage` is consulted and the whole run dies when the free
space is below the threshold; otherwise `_download` runs.  `free`
gives the destination filesystem's free bytes as a function of the
directory state. -/
def rmSync (threshold : Nat) (free : FS → Nat) (fetch : Report → FetchOut) :
    List Report → FS → RMResult
  | [], fs => ⟨fs, [], false⟩
  | r :: rest, fs =>
      if free fs < threshold then ⟨fs, [], true⟩
      else
        let step := rmDownload (fetch r) r fs
        let res := rmSync threshold free fetch rest step.1
        ⟨res.fs, r :: res.dl, res.fatal⟩

/-- A fetched mapping document: its size and whether it parses as
JSON. -/
structure MapDoc : Type where
  size : Nat
  valid : Bool
deriving DecidableEq, Repr

/-- Outcome of the `urlretrieve(MAPURL, map_tmp)` call of `update`. -/
inductive MapFetch : Type where
  | ok : MapDoc → MapFetch
  | errAfterWrite : MapDoc → MapFetch
  | errNoWrite : MapFetch
deriving DecidableEq, Repr

/-- The two mapping-file paths of `update`: the dot-prefixed temporary
`.map.json` and the active `map.json`. -/
structure MapState : Type where
  tmp : Option MapDoc
  active : Option MapDoc
deriving DecidableEq, Repr

/-- Embeds `update` of shadowserver_cef_logger.py (lines 192-216) and
shadowserver_ecs_logger.py (lines 195-219), whose bodies are
identical: fetch to the temporary path, set `status` only when the
fetch returned, the size is non-zero and `json.load` succeeds; on
`status` rename the temporary onto the active path, otherwise unlink
the temporary when present, leaving the active file as it was. -/
def update (f : MapFetch) (s : MapState) : MapState × Bool :=
  let afterFetch : Option MapDoc × Bool :=
    match f with
    | MapFetch.ok d => (some d, d.size > 0 && d.valid)
    | MapFetch.errAfterWrite d => (some d, false)
    | MapFetch.errNoWrite => (s.tmp, false)
  if afterFetch.2 then (⟨none, afterFetch.1⟩, true)
  else (⟨none, s.active⟩, false)

/-- Embeds the date-window computation of `ShadowserverCEFLogger.run`
(lines 136-139): `daybefore = date - timedelta(2)`,
`dayafter = date + timedelta(1)`, request date string
`f'{daybefore.isoformat()}:{dayafter.isoformat()}'`.  Days are
modelled as integers and `iso` stands for `date.isoformat`. -/
def cefDateStr (iso : Int → String) (today : Int) : String :=
  iso (today - 2) ++ ":" ++ iso (today + 1)

/-- Embeds the date-window computation of `ShadowserverECSLogger.run`
(lines 144-146): `begin = date - timedelta(2)`, request date string
`f'{begin.isoformat()}:{date.isoformat()}'`. -/
def ecsDateStr (iso : Int → String) (today : Int) : String :=
  iso (today - 2) ++ ":" ++ iso today

/-- Embeds the listing call `self._api_call('reports/list', request)`
with `request = {'date': date_str}` for the CEF logger. -/
def cefListRequest (iso : Int → String) (today : Int) : String × String :=
  ("reports/list", cefDateStr iso today)

/-- Embeds the listing call for the ECS logger. -/
def ecsListRequest (iso : Int → String) (today : Int) : String × String :=
  ("reports/list", ecsDateStr iso today)

end ApiUtils

namespace ApiUtils

/-! Helper lemmas about the dictionary and filesystem model. -/

/-- Appending a fresh key: Python dict assignment with an absent key
appends the pair at the end. -/
theorem dictSet_of_get_none {α : Type} (l : List (String × α)) (k : String) (v : α)
    (h : dictGet l k = none) : dictSet l k v = l ++ [(k, v)] := by
  induction l with
  | nil => rfl
  | cons e rest ih =>
      rw [dictGet] at h
      rw [dictSet]
      by_cases hk : e.1 = k
      · simp [hk] at h
      · rw [if_neg hk]
        rw [if_neg hk] at h
        simp [ih h]

/-- A written path exists. -/
theorem pathExists_setFS_self (fs : FS) (p : String) (n : Nat) :
    pathExists (setFS fs p n) p = true := by
  induction fs with
  | nil => simp [setFS, dictSet, pathExists]
  | cons e rest ih =>
      by_cases hk : e.1 = p
      · simp [setFS, dictSet, pathExists, hk]
      · simp only [setFS, dictSet, if_neg hk, pathExists, List.any_cons]
        simp only [setFS, pathExists] at ih
        simp [ih]

/-- Writing one path does not change the existence of another. -/
theorem pathExists_setFS_ne (fs : FS) (p q : String) (n : Nat) (h : q ≠ p) :
    pathExists (setFS fs q n) p = pathExists fs p := by
  induction fs with
  | nil => simp [setFS, dictSet, pathExists, h]
  | cons e rest ih =>
      by_cases hk : e.1 = q
      · simp [setFS, dictSet, pathExists, hk]
      · simp only [setFS, dictSet, if_neg hk, pathExists, List.any_cons]
        simp only [setFS, pathExists] at ih
        simp [ih]

/-- A removed path no longer exists. -/
theorem pathExists_removeFS_self (fs : FS) (p : String) :
    pathExists (removeFS fs p) p = false := by
  induction fs with
  | nil => rfl
  | cons e rest ih =>
      by_cases hk : e.1 = p
      · simpa [removeFS, hk] using ih
      · simp only [removeFS, if_neg hk, pathExists, List.any_cons]
        simp only [pathExists] at ih
        simp [ih, hk]

/-- Removing one path does not change the existence of another. -/
theorem pathExists_removeFS_ne (fs : FS) (p q : String) (h : q ≠ p) :
    pathExists (removeFS fs q) p = pathExists fs p := by
  induction fs with
  | nil => rfl
  | cons e rest ih =>
      by_cases hk : e.1 = q
      · have hep : e.1 ≠ p := by rw [hk]; exact h
        simp only [removeFS, if_pos hk, pathExists, List.any_cons]
        simp only [pathExists] at ih
        simp [ih, hep]
      · simp only [removeFS, if_neg hk, pathExists, List.any_cons]
        simp only [pathExists] at ih
        simp [ih]

/-- The size recorded by a write. -/
theorem getSize_setFS_self (fs : FS) (p : String) (n : Nat) :
    getSize (setFS fs p n) p = some n := by
  induction fs with
  | nil => simp [setFS, dictSet, getSize, dictGet]
  | cons e rest ih =>
      by_cases hk : e.1 = p
      · simp [setFS, dictSet, getSize, dictGet, hk]
      · simp only [setFS, dictSet, if_neg hk, getSize, dictGet, if_neg hk]
        simpa [getSize, setFS] using ih

/-- A dot-prefixed temporary name never equals the final name. -/
theorem dot_ne (f : String) : ("." ++ f) ≠ f := by
  intro h
  have hl := congrArg String.length h
  rw [String.length_append] at hl
  have h1 : (".").length = 1 := rfl
  rw [h1] at hl
  omega

/-- Skip invariant of the CEF cycle: a path present when the cycle
starts is never downloaded to, never streamed from, and still exists
when the cycle ends, whether or not the cycle dies on an exception. -/
theorem cefRunCycle_preserves (m : List String) (t : Option (List String))
    (fetch : Report → FetchOut) (reports : List Report) (fs : FS) (p : String)
    (hp : pathExists fs p = true) :
    pathExists (cefRunCycle m t fetch reports fs).fs p = true ∧
    (∀ r ∈ (cefRunCycle m t fetch reports fs).dl, r.file ≠ p) ∧
    (∀ r ∈ (cefRunCycle m t fetch reports fs).tr, r.file ≠ p) := by
  induction reports generalizing fs with
  | nil =>
      simp only [cefRunCycle]
      exact ⟨hp, by simp, by simp⟩
  | cons r rest ih =>
      simp only [cefRunCycle]
      by_cases hfilt : (!passesFilter t r) = true
      · rw [if_pos hfilt]; exact ih fs hp
      · rw [if_neg hfilt]
        by_cases hex : pathExists fs r.file = true
        · rw [if_pos hex]; exact ih fs hp
        · rw [if_neg hex]
          have hrfile : r.file ≠ p := by
            intro hc; rw [hc] at hex; exact hex hp
          by_cases hmap : (!m.contains r.type) = true
          · rw [if_pos hmap]; exact ih fs hp
          · rw [if_neg hmap]
            cases hfo : fetch r with
            | ok n =>
                cases n with
                | zero =>
                    simp only [loggerDownload]
                    have hfs1 : pathExists (setFS fs r.file 0) p = true := by
                      rw [pathExists_setFS_ne fs p r.file 0 hrfile]; exact hp
                    refine ⟨(ih _ hfs1).1, ?_, (ih _ hfs1).2.2⟩
                    intro r' hr'
                    rcases List.mem_cons.mp hr' with h | h
                    · rw [h]; exact hrfile
                    · exact (ih _ hfs1).2.1 r' h
                | succ k =>
                    simp only [loggerDownload]
                    have hfs2 :
                        pathExists (setFS (setFS fs r.file (k + 1)) r.file 0) p = true := by
                      rw [pathExists_setFS_ne _ p r.file 0 hrfile,
                        pathExists_setFS_ne _ p r.file (k + 1) hrfile]
                      exact hp
                    refine ⟨(ih _ hfs2).1, ?_, ?_⟩
                    · intro r' hr'
                      rcases List.mem_cons.mp hr' with h | h
                      · rw [h]; exact hrfile
                      · exact (ih _ hfs2).2.1 r' h
                    · intro r' hr'
                      rcases List.mem_cons.mp hr' with h | h
                      · rw [h]; exact hrfile
                      · exact (ih _ hfs2).2.2 r' h
            | errAfterWrite k =>
                simp only [loggerDownload]
                have hfs1 :
                    pathExists (removeFS (setFS fs r.file k) r.file) p = true := by
                  rw [pathExists_removeFS_ne _ p r.file hrfile,
                    pathExists_setFS_ne _ p r.file k hrfile]
                  exact hp
                refine ⟨(ih _ hfs1).1, ?_, (ih _ hfs1).2.2⟩
                intro r' hr'
                rcases List.mem_cons.mp hr' with h | h
                · rw [h]; exact hrfile
                · exact (ih _ hfs1).2.1 r' h
            | errNoWrite =>
                simp only [loggerDownload]
                refine ⟨hp, ?_, by simp⟩
                intro r' hr'
                rcases List.mem_cons.mp hr' with h | h
                · rw [h]; exact hrfile
                · simp at h

/-- When every fetch returns without raising, a CEF cycle never dies
and leaves a local file for every report that passes the type filter
and has a mapping entry. -/
theorem cefRunCycle_complete (m : List String) (t : Option (List String))
    (fetch : Report → FetchOut) (reports : List Report) (fs : FS)
    (hf : ∀ r ∈ reports, ∃ n, fetch r = FetchOut.ok n) :
    (cefRunCycle m t fetch reports fs).fatal = false ∧
    ∀ r ∈ reports, passesFilter t r = true → m.contains r.type = true →
      pathExists (cefRunCycle m t fetch reports fs).fs r.file = true := by
  induction reports generalizing fs with
  | nil => simp [cefRunCycle]
  | cons r rest ih =>
      have hfrest : ∀ r' ∈ rest, ∃ n, fetch r' = FetchOut.ok n :=
        fun r' hr' => hf r' (List.mem_cons_of_mem r hr')
      simp only [cefRunCycle]
      by_cases hfilt : (!passesFilter t r) = true
      · rw [if_pos hfilt]
        refine ⟨(ih fs hfrest).1, ?_⟩
        intro r' hr' hpass hmap
        rcases List.mem_cons.mp hr' with h | h
        · rw [h] at hpass; rw [hpass] at hfilt; simp at hfilt
        · exact (ih fs hfrest).2 r' h hpass hmap
      · rw [if_neg hfilt]
        by_cases hex : pathExists fs r.file = true
        · rw [if_pos hex]
          refine ⟨(ih fs hfrest).1, ?_⟩
          intro r' hr' hpass hmap
          rcases List.mem_cons.mp hr' with h | h
          · rw [h]
            exact (cefRunCycle_preserves m t fetch rest fs r.file hex).1
          · exact (ih fs hfrest).2 r' h hpass hmap
        · rw [if_neg hex]
          by_cases hmapr : (!m.contains r.type) = true
          · rw [if_pos hmapr]
            refine ⟨(ih fs hfrest).1, ?_⟩
            intro r' hr' hpass hmap
            rcases List.mem_cons.mp hr' with h | h
            · rw [h] at hmap; rw [hmap] at hmapr; simp at hmapr
            · exact (ih fs hfrest).2 r' h hpass hmap
          · rw [if_neg hmapr]
            rcases hf r (List.mem_cons_self r rest) with ⟨n, hfo⟩
            rw [hfo]
            cases n with
            | zero =>
                simp only [loggerDownload]
                have hself : pathExists (setFS fs r.file 0) r.file = true :=
                  pathExists_setFS_self fs r.file 0
                refine ⟨(ih _ hfrest).1, ?_⟩
                intro r' hr' hpass hmap
                rcases List.mem_cons.mp hr' with h | h
                · rw [h]
                  exact (cefRunCycle_preserves m t fetch rest _ r.file hself).1
                · exact (ih _ hfrest).2 r' h hpass hmap
            | succ k =>
                simp only [loggerDownload]
                have hself :
                    pathExists (setFS (setFS fs r.file (k + 1)) r.file 0) r.file = true :=
                  pathExists_setFS_self _ r.file 0
                refine ⟨(ih _ hfrest).1, ?_⟩
                intro r' hr' hpass hmap
                rcases List.mem_cons.mp hr' with h | h
                · rw [h]
                  exact (cefRunCycle_preserves m t fetch rest _ r.file hself).1
                · exact (ih _ hfrest).2 r' h hpass hmap

/-- A CEF cycle started in a state that already has a local file for
every eligible report does nothing: no download, no stream, no
filesystem change, no death. -/
theorem cefRunCycle_noop (m : List String) (t : Option (List String))
    (fetch : Report → FetchOut) (reports : List Report) (fs : FS)
    (hc : ∀ r ∈ reports, passesFilter t r = true → m.contains r.type = true →
      pathExists fs r.file = true) :
    cefRunCycle m t fetch reports fs = ⟨fs, [], [], false⟩ := by
  induction reports with
  | nil => simp [cefRunCycle]
  | cons r rest ih =>
      have hcrest : ∀ r' ∈ rest, passesFilter t r' = true → m.contains r'.type = true →
          pathExists fs r'.file = true :=
        fun r' hr' => hc r' (List.mem_cons_of_mem r hr')
      simp only [cefRunCycle]
      by_cases hfilt : (!passesFilter t r) = true
      · rw [if_pos hfilt]; exact ih hcrest
      · rw [if_neg hfilt]
        have hpass : passesFilter t r = true := by
          cases hpf : passesFilter t r
          · rw [hpf] at hfilt; simp at hfilt
          · rfl
        by_cases hex : pathExists fs r.file = true
        · rw [if_pos hex]; exact ih hcrest
        · rw [if_neg hex]
          have hmapr : (!m.contains r.type) = true := by
            cases hm : m.contains r.type
            · rfl
            · exact absurd (hc r (List.mem_cons_self r rest) hpass hm) hex
          rw [if_pos hmapr]
          exact ih hcrest

/-- Skip invariant of the ECS cycle, identical in content to the CEF
one: a path present when the cycle starts is never downloaded to,
never streamed from, and still exists when the cycle ends. -/
theorem ecsRunCycle_preserves (mp : List (String × String)) (t : Option (List String))
    (fetch : Report → FetchOut) (reports : List Report) (fs : FS) (p : String)
    (hp : pathExists fs p = true) :
    pathExists (ecsRunCycle mp t fetch reports fs).fs p = true ∧
    (∀ r ∈ (ecsRunCycle mp t fetch reports fs).dl, r.file ≠ p) ∧
    (∀ r ∈ (ecsRunCycle mp t fetch reports fs).tr, r.file ≠ p) := by
  induction reports generalizing fs with
  | nil =>
      simp only [ecsRunCycle]
      exact ⟨hp, by simp, by simp⟩
  | cons r rest ih =>
      simp only [ecsRunCycle]
      by_cases hfilt : (!passesFilter t r) = true
      · rw [if_pos hfilt]; exact ih fs hp
      · rw [if_neg hfilt]
        by_cases hex : pathExists fs r.file = true
        · rw [if_pos hex]; exact ih fs hp
        · rw [if_neg hex]
          have hrfile : r.file ≠ p := by
            intro hc; rw [hc] at hex; exact hex hp
          cases hfo : fetch r with
          | ok n =>
              cases n with
              | zero =>
                  simp only [loggerDownload]
                  have hfs1 : pathExists (setFS fs r.file 0) p = true := by
                    rw [pathExists_setFS_ne fs p r.file 0 hrfile]; exact hp
                  refine ⟨(ih _ hfs1).1, ?_, (ih _ hfs1).2.2⟩
                  intro r' hr'
                  rcases List.mem_cons.mp hr' with h | h
                  · rw [h]; exact hrfile
                  · exact (ih _ hfs1).2.1 r' h
              | succ k =>
                  simp only [loggerDownload]
                  have hfs2 :
                      pathExists (setFS (setFS fs r.file (k + 1)) r.file 0) p = true := by
                    rw [pathExists_setFS_ne _ p r.file 0 hrfile,
                      pathExists_setFS_ne _ p r.file (k + 1) hrfile]
                    exact hp
                  refine ⟨(ih _ hfs2).1, ?_, ?_⟩
                  · intro r' hr'
                    rcases List.mem_cons.mp hr' with h | h
                    · rw [h]; exact hrfile
                    · exact (ih _ hfs2).2.1 r' h
                  · intro r' hr'
                    rcases List.mem_cons.mp hr' with h | h
                    · rw [h]; exact hrfile
                    · exact (ih _ hfs2).2.2 r' h
          | errAfterWrite k =>
              simp only [loggerDownload]
              have hfs1 :
                  pathExists (removeFS (setFS fs r.file k) r.file) p = true := by
                rw [pathExists_removeFS_ne _ p r.file hrfile,
                  pathExists_setFS_ne _ p r.file k hrfile]
                exact hp
              refine ⟨(ih _ hfs1).1, ?_, (ih _ hfs1).2.2⟩
              intro r' hr'
              rcases List.mem_cons.mp hr' with h | h
              · rw [h]; exact hrfile
              · exact (ih _ hfs1).2.1 r' h
          | errNoWrite =>
              simp only [loggerDownload]
              refine ⟨hp, ?_, by simp⟩
              intro r' hr'
              rcases List.mem_cons.mp hr' with h | h
              · rw [h]; exact hrfile
              · simp at h

/-- C2 counterexample: with a table containing both `mytype.ip` and a
bare `ip` entry, transforming a row of type `mytype` emits the bare
entry's target `other.ip`, not the type-qualified `source.ip` that the
claim requires, because `_stream_events` checks the bare entry second
and overwrites. -/
theorem C2_counterexample :
    resolveMapped [("mytype.ip", "source.ip"), ("ip", "other.ip")] "mytype" "ip" = "other.ip" ∧
    processRow [("mytype.ip", "source.ip"), ("ip", "other.ip")] "mytype" [("ip", "1.2.3.4")] =
      Except.ok [("other.ip", EValue.str "1.2.3.4"), ("data_stream.dataset", EValue.str "mytype")] ∧
    ("other.ip" : String) ≠ "source.ip" :=
  ⟨rfl, rfl, by decide⟩

/-- C2 (amended): for every non-empty row field the output key is
resolved by trying the bare `field` entry first, then the exact
`type.field` entry, then the `extra.<field>` passthrough — a bare
entry overrides a type-qualified one when both are present. -/
theorem C2_resolution_order (map : List (String × String)) (rtype field : String) :
    (∀ tgt, dictGet map field = some tgt → resolveMapped map rtype field = tgt) ∧
    (dictGet map field = none →
      ∀ tgt, dictGet map (rtype ++ "." ++ field) = some tgt →
        resolveMapped map rtype field = tgt) ∧
    (dictGet map field = none → dictGet map (rtype ++ "." ++ field) = none →
      resolveMapped map rtype field = "extra." ++ field) := by
  refine ⟨?_, ?_, ?_⟩
  · intro tgt h; simp [resolveMapped, h]
  · intro h1 tgt h2; simp [resolveMapped, h1, h2]
  · intro h1 h2; simp [resolveMapped, h1, h2]

/-- C2 witness: the amended resolution applied at a concrete table. -/
theorem C2_witness :
    resolveMapped [("mytype.ip", "source.ip"), ("ip", "other.ip")] "other" "ip" = "other.ip" :=
  (C2_resolution_order [("mytype.ip", "source.ip"), ("ip", "other.ip")] "other" "ip").1
    "other.ip" rfl

/-- C6 counterexample: a mapping value `&bogus` (or `&bogus(arg)`)
whose directive name is unknown does not produce a literal key/value
pair — the field is dropped and the row yields only the
`data_stream.dataset` annotation. -/
theorem C6_counterexample :
    processRow [("ip", "&bogus")] "t" [("ip", "1.2.3.4")] =
      Except.ok [("data_stream.dataset", EValue.str "t")] ∧
    processRow [("ip", "&bogus(arg)")] "t" [("ip", "1.2.3.4")] =
      Except.ok [("data_stream.dataset", EValue.str "t")] ∧
    dictGet [(("data_stream.dataset" : String), EValue.str "t")] "&bogus" = none :=
  ⟨rfl, rfl, rfl⟩

/-- C6 (amended): a mapping value that parses as a directive whose
name is outside the registered set `{timestamp, labels, tags}` makes
the transformer drop the field silently: the event is returned
unchanged, no key is emitted and no exception is raised. -/
theorem C6_unknown_directive (map : List (String × String)) (rtype : String) (e : Event)
    (field value : String) (hv : value ≠ "") :
    (∀ func args, parseDirectiveArgs (resolveMapped map rtype field) = some (func, args) →
      func ≠ "timestamp" → func ≠ "labels" → func ≠ "tags" →
      processField map rtype e field value = Except.ok e) ∧
    (parseDirectiveArgs (resolveMapped map rtype field) = none →
      ∀ func, parseDirective (resolveMapped map rtype field) = some func →
      func ≠ "timestamp" → func ≠ "labels" → func ≠ "tags" →
      processField map rtype e field value = Except.ok e) := by
  constructor
  · intro func args hpa h1 h2 h3
    simp only [processField]
    rw [if_neg hv, hpa]
    simp [h1, h2, h3]
  · intro hpa func hpd h1 h2 h3
    simp only [processField]
    rw [if_neg hv, hpa, hpd]
    simp [h1, h2, h3]

/-- C6 witness: the unknown directive `&bogus(x)` at a concrete
table leaves the event unchanged. -/
theorem C6_witness :
    processField [("ip", "&bogus(x)")] "t" [] "ip" "1.2.3.4" = Except.ok [] :=
  (C6_unknown_directive [("ip", "&bogus(x)")] "t" [] "ip" "1.2.3.4" (by decide)).1
    "bogus" ["x"] rfl (by decide) (by decide) (by decide)

/-- C7: a `&labels(category)` directive with value `"malware"` adds
exactly `labels.category = "malware"` to the event and no other key
for that field, and a `&tags` directive with value `"a,b;c"` sets the
event's tag list to the ordered list `["a", "b", "c"]`, splitting on
both comma and semicolon. -/
theorem C7_directive_dispatch :
    (∀ (map : List (String × String)) (rtype : String) (e : Event) (field : String),
      resolveMapped map rtype field = "&labels(category)" →
      dictGet e "labels" = none →
      processField map rtype e field "malware" =
        Except.ok (e ++ [("labels", EValue.dict [("category", "malware")])])) ∧
    (∀ (map : List (String × String)) (rtype : String) (e : Event) (field : String),
      resolveMapped map rtype field = "&tags" →
      processField map rtype e field "a,b;c" =
        Except.ok (dictSet e "tags" (EValue.list ["a", "b", "c"]))) := by
  constructor
  · intro map rtype e field hres hl
    simp only [processField]
    rw [if_neg (by decide : ¬("malware" : String) = ""), hres]
    show Except.ok (set_labels e field "malware" ["category"]) =
      Except.ok (e ++ [("labels", EValue.dict [("category", "malware")])])
    simp only [set_labels, hl]
    rw [dictSet_of_get_none e "labels" _ hl]
    rfl
  · intro map rtype e field hres
    simp only [processField]
    rw [if_neg (by decide : ¬("a,b;c" : String) = ""), hres]
    show Except.ok (set_tags e field "a,b;c") =
      Except.ok (dictSet e "tags" (EValue.list ["a", "b", "c"]))
    rfl

/-- C7 witness: both directives applied at concrete tables starting
from the empty event. -/
theorem C7_witness :
    processField [("src", "&labels(category)")] "ty" [] "src" "malware" =
      Except.ok ([] ++ [("labels", EValue.dict [("category", "malware")])]) ∧
    processField [("c", "&tags")] "ty" [] "c" "a,b;c" =
      Except.ok (dictSet [] "tags" (EValue.list ["a", "b", "c"])) :=
  ⟨C7_directive_dispatch.1 [("src", "&labels(category)")] "ty" [] "src" rfl rfl,
   C7_directive_dispatch.2 [("c", "&tags")] "ty" [] "c" rfl⟩

/-- C9 counterexample: the ECS logger's listing request ends at today,
not one day after today; with a concrete isoformat fixture where today
is day 0, the request string is `2024-01-01:2024-01-03` instead of the
`2024-01-01:2024-01-04` the claim requires. -/
theorem C9_counterexample :
    ecsDateStr
        (fun i => if i = -2 then "2024-01-01" else if i = 0 then "2024-01-03" else "2024-01-04")
        0 = "2024-01-01:2024-01-03" ∧
    ("2024-01-01:2024-01-03" : String) ≠ "2024-01-01:2024-01-04" :=
  ⟨by decide, by decide⟩

/-- C9 (amended): both loggers pass a single `start:end` range to the
`reports/list` call; the CEF logger's range runs from two days before
today to one day after today, while the ECS logger's range runs from
two days before today to today. -/
theorem C9_date_window (iso : Int → String) (today : Int) :
    cefListRequest iso today = ("reports/list", iso (today - 2) ++ ":" ++ iso (today + 1)) ∧
    ecsListRequest iso today = ("reports/list", iso (today - 2) ++ ":" ++ iso today) :=
  ⟨rfl, rfl⟩

/-- C1 counterexample: the CEF/ECS logger `_download` writes straight
to the final path, so a zero-byte fetch leaves a zero-byte file at the
final report path (the claim requires no file there), and the next
cycle over the same listing skips the report instead of attempting the
download again. -/
theorem C1_counterexample :
    loggerDownload (FetchOut.ok 0) "2024-01-01-scan.csv" [] =
      ([("2024-01-01-scan.csv", 0)], false, false) ∧
    pathExists [("2024-01-01-scan.csv", 0)] "2024-01-01-scan.csv" = true ∧
    (cefRunCycle ["scan"] none (fun _ => FetchOut.ok 7)
        [⟨"id1", "2024-01-01-scan.csv", "scan", "2024-01-01"⟩]
        [("2024-01-01-scan.csv", 0)]).dl = [] :=
  ⟨rfl, rfl, rfl⟩

/-- C1 (amended): the report-manager downloader writes to the
dot-prefixed temporary name and renames into place only after a
non-zero size, so its failed or zero-byte downloads leave no file at
the final path and a later attempt retries; the CEF/ECS logger
downloader writes directly to the final path, where a failed download
removes the file but a zero-byte download leaves a zero-byte file at
the final path. -/
theorem C1_download_atomicity :
    (∀ (r : Report) (fs : FS) (n : Nat), pathExists fs r.file = false →
      (pathExists (rmDownload (FetchOut.ok (n + 1)) r fs).1 r.file = true ∧
        getSize (rmDownload (FetchOut.ok (n + 1)) r fs).1 r.file = some (n + 1) ∧
        pathExists (rmDownload (FetchOut.ok (n + 1)) r fs).1 ("." ++ r.file) = false) ∧
      pathExists (rmDownload (FetchOut.ok 0) r fs).1 r.file = false ∧
      (∀ k, pathExists (rmDownload (FetchOut.errAfterWrite k) r fs).1 r.file = false) ∧
      pathExists (rmDownload FetchOut.errNoWrite r fs).1 r.file = false) ∧
    (∀ (p : String) (fs : FS) (k : Nat),
      pathExists (loggerDownload (FetchOut.errAfterWrite k) p fs).1 p = false) ∧
    (∀ (p : String) (fs : FS),
      pathExists (loggerDownload (FetchOut.ok 0) p fs).1 p = true) := by
  refine ⟨?_, ?_, ?_⟩
  · intro r fs n h
    have hnot : ¬ pathExists fs r.file = true := by rw [h]; exact Bool.false_ne_true
    refine ⟨⟨?_, ?_, ?_⟩, ?_, ?_, ?_⟩
    · simp only [rmDownload, if_neg hnot]
      exact pathExists_setFS_self _ r.file (n + 1)
    · simp only [rmDownload, if_neg hnot]
      exact getSize_setFS_self _ r.file (n + 1)
    · simp only [rmDownload, if_neg hnot]
      rw [pathExists_setFS_ne _ ("." ++ r.file) r.file (n + 1) (Ne.symm (dot_ne r.file))]
      exact pathExists_removeFS_self _ ("." ++ r.file)
    · simp only [rmDownload, if_neg hnot]
      rw [pathExists_setFS_ne _ r.file ("." ++ r.file) 0 (dot_ne r.file)]
      exact h
    · intro k
      simp only [rmDownload, if_neg hnot]
      rw [pathExists_setFS_ne _ r.file ("." ++ r.file) k (dot_ne r.file)]
      exact h
    · simp only [rmDownload, if_neg hnot]
      exact h
  · intro p fs k
    simp only [loggerDownload]
    exact pathExists_removeFS_self _ p
  · intro p fs
    simp only [loggerDownload]
    exact pathExists_setFS_self fs p 0

/-- C1 witness: the amended statement applied at a concrete report and
an empty directory. -/
theorem C1_witness :
    pathExists (rmDownload (FetchOut.ok 0) ⟨"i", "a.csv", "scan", "d"⟩ []).1 "a.csv" = false :=
  (C1_download_atomicity.1 ⟨"i", "a.csv", "scan", "d"⟩ [] 0 rfl).2.1

/-- C3: a report whose local path exists at the start of a cycle is
never downloaded in that cycle, and — when every fetch of the first
cycle returns without raising — a second cycle over the same listing
invokes `_download` for nothing and leaves the directory unchanged. -/
theorem C3_sync_idempotent (m : List String) (t : Option (List String))
    (fetch : Report → FetchOut) (reports : List Report) (fs : FS)
    (hf : ∀ r ∈ reports, ∃ n, fetch r = FetchOut.ok n) :
    (∀ p, pathExists fs p = true →
      ∀ r ∈ (cefRunCycle m t fetch reports fs).dl, r.file ≠ p) ∧
    cefRunCycle m t fetch reports (cefRunCycle m t fetch reports fs).fs =
      ⟨(cefRunCycle m t fetch reports fs).fs, [], [], false⟩ := by
  constructor
  · intro p hp
    exact (cefRunCycle_preserves m t fetch reports fs p hp).2.1
  · apply cefRunCycle_noop
    intro r hr hpass hmap
    exact (cefRunCycle_complete m t fetch reports fs hf).2 r hr hpass hmap

/-- C3 witness: two consecutive cycles at a concrete listing; the
second one downloads nothing and changes nothing. -/
theorem C3_witness :
    cefRunCycle ["scan"] none (fun _ => FetchOut.ok 3) [⟨"i", "a.csv", "scan", "d"⟩]
        (cefRunCycle ["scan"] none (fun _ => FetchOut.ok 3)
          [⟨"i", "a.csv", "scan", "d"⟩] []).fs =
      ⟨(cefRunCycle ["scan"] none (fun _ => FetchOut.ok 3)
          [⟨"i", "a.csv", "scan", "d"⟩] []).fs, [], [], false⟩ :=
  (C3_sync_idempotent ["scan"] none (fun _ => FetchOut.ok 3) [⟨"i", "a.csv", "scan", "d"⟩] []
    (fun _ _ => ⟨3, rfl⟩)).2

/-- C4 counterexample: the ECS logger has no mapping-table check in
`run`; with an empty mapping dictionary (so the type `scan_foo`
certainly has no entry) the listed report is both downloaded and
streamed, where the claim requires it to be skipped. -/
theorem C4_counterexample :
    (ecsRunCycle [] none (fun _ => FetchOut.ok 5)
        [⟨"i", "b.csv", "scan_foo", "d"⟩] []).dl = [⟨"i", "b.csv", "scan_foo", "d"⟩] ∧
    (ecsRunCycle [] none (fun _ => FetchOut.ok 5)
        [⟨"i", "b.csv", "scan_foo", "d"⟩] []).tr = [⟨"i", "b.csv", "scan_foo", "d"⟩] ∧
    dictGet ([] : List (String × String)) "scan_foo.ip" = none :=
  ⟨rfl, rfl, rfl⟩

/-- C4 (amended): in the CEF logger a report whose type has no entry
in the mapping table is never downloaded and never streamed — the
`run` loop skips it with a warning before `_download`; the ECS logger
performs no such check. -/
theorem C4_unmapped_type_cef (m : List String) (t : Option (List String))
    (fetch : Report → FetchOut) (reports : List Report) (fs : FS) (r : Report)
    (hm : m.contains r.type = false) :
    r ∉ (cefRunCycle m t fetch reports fs).dl ∧
    r ∉ (cefRunCycle m t fetch reports fs).tr := by
  induction reports generalizing fs with
  | nil => simp [cefRunCycle]
  | cons r0 rest ih =>
      simp only [cefRunCycle]
      by_cases hfilt : (!passesFilter t r0) = true
      · rw [if_pos hfilt]; exact ih fs
      · rw [if_neg hfilt]
        by_cases hex : pathExists fs r0.file = true
        · rw [if_pos hex]; exact ih fs
        · rw [if_neg hex]
          by_cases hmapr : (!m.contains r0.type) = true
          · rw [if_pos hmapr]; exact ih fs
          · rw [if_neg hmapr]
            have hr0 : r ≠ r0 := by
              intro hc
              rw [hc] at hm
              rw [hm] at hmapr
              simp at hmapr
            cases hfo : fetch r0 with
            | ok n =>
                cases n with
                | zero =>
                    simp only [loggerDownload]
                    constructor
                    · intro hmem
                      rcases List.mem_cons.mp hmem with h | h
                      · exact hr0 h
                      · exact (ih _).1 h
                    · exact (ih _).2
                | succ k =>
                    simp only [loggerDownload]
                    constructor
                    · intro hmem
                      rcases List.mem_cons.mp hmem with h | h
                      · exact hr0 h
                      · exact (ih _).1 h
                    · intro hmem
                      rcases List.mem_cons.mp hmem with h | h
                      · exact hr0 h
                      · exact (ih _).2 h
            | errAfterWrite k =>
                simp only [loggerDownload]
                constructor
                · intro hmem
                  rcases List.mem_cons.mp hmem with h | h
                  · exact hr0 h
                  · exact (ih _).1 h
                · exact (ih _).2
            | errNoWrite =>
                simp only [loggerDownload]
                constructor
                · intro hmem
                  rcases List.mem_cons.mp hmem with h | h
                  · exact hr0 h
                  · simp at h
                · simp

/-- C4 witness: a concrete unmapped report is not downloaded by the
CEF cycle. -/
theorem C4_witness :
    (⟨"i", "c.csv", "other", "d"⟩ : Report) ∉
      (cefRunCycle ["scan"] none (fun _ => FetchOut.ok 5)
        [⟨"i", "c.csv", "other", "d"⟩] []).dl :=
  (C4_unmapped_type_cef ["scan"] none (fun _ => FetchOut.ok 5) [⟨"i", "c.csv", "other", "d"⟩]
    [] ⟨"i", "c.csv", "other", "d"⟩ rfl).1

/-- C5: the report-manager download loop queries free space before
each report and, whenever it is below the configured threshold, dies
immediately — with the guard tripping on the first report, the whole
run aborts with no download attempted and the directory untouched; the
default threshold is 512 MB. -/
theorem C5_disk_guard :
    (∀ (threshold : Nat) (free : FS → Nat) (fetch : Report → FetchOut)
        (r : Report) (rest : List Report) (fs : FS),
      free fs < threshold →
      rmSync threshold free fetch (r :: rest) fs = ⟨fs, [], true⟩) ∧
    rmThreshold none = 512 * 1024 * 1024 := by
  constructor
  · intro threshold free fetch r rest fs h
    simp only [rmSync]
    rw [if_pos h]
  · rfl

/-- C5 witness: the guard applied at the default threshold with zero
free bytes. -/
theorem C5_witness :
    rmSync (rmThreshold none) (fun _ => 0) (fun _ => FetchOut.ok 1)
        [⟨"i", "a.csv", "scan", "d"⟩] [] = ⟨[], [], true⟩ :=
  C5_disk_guard.1 (rmThreshold none) (fun _ => 0) (fun _ => FetchOut.ok 1)
    ⟨"i", "a.csv", "scan", "d"⟩ [] [] (by decide)

/-- C8: `update` reports success only for a fetch that returned a
non-empty document that parses as JSON, in which case the temporary is
renamed onto the active path; in every other case (failed fetch, empty
or unparseable document) the previously active mapping file is left
unchanged and the temporary file is removed. -/
theorem C8_update_guarded (f : MapFetch) (s : MapState) :
    ((update f s).2 = true →
      ∃ d, f = MapFetch.ok d ∧ 0 < d.size ∧ d.valid = true ∧
        (update f s).1 = ⟨none, some d⟩) ∧
    ((update f s).2 = false →
      (update f s).1.active = s.active ∧ (update f s).1.tmp = none) := by
  cases f with
  | ok d =>
      by_cases hs : (decide (d.size > 0) && d.valid) = true
      · constructor
        · intro _
          rcases Bool.and_eq_true_iff.mp hs with ⟨h1, h2⟩
          refine ⟨d, rfl, of_decide_eq_true h1, h2, ?_⟩
          simp [update, hs]
        · intro hfalse
          rw [show (update (MapFetch.ok d) s).2 = true by simp [update, hs]] at hfalse
          simp at hfalse
      · constructor
        · intro htrue
          rw [show (update (MapFetch.ok d) s).2 = false by simp [update, hs]] at htrue
          simp at htrue
        · intro _
          constructor
          · simp [update, hs]
          · simp [update, hs]
  | errAfterWrite d =>
      constructor
      · intro htrue
        simp [update] at htrue
      · intro _
        exact ⟨rfl, rfl⟩
  | errNoWrite =>
      constructor
      · intro htrue
        simp [update] at htrue
      · intro _
        exact ⟨rfl, rfl⟩

/-- C8 witness: a zero-size fetch leaves the active mapping unchanged
and the temporary removed. -/
theorem C8_witness :
    (update (MapFetch.ok ⟨0, true⟩) ⟨none, some ⟨7, true⟩⟩).1.active = some ⟨7, true⟩ ∧
    (update (MapFetch.ok ⟨0, true⟩) ⟨none, some ⟨7, true⟩⟩).1.tmp = none :=
  (C8_update_guarded (MapFetch.ok ⟨0, true⟩) ⟨none, some ⟨7, true⟩⟩).2 rfl

/-- C10: in the CEF and ECS loggers a fetch that completes with zero
bytes makes `_download` return false while the zero-byte file stays at
the final report path with size 0; and any cycle whose directory
already holds that path never downloads it, never streams it, and
leaves the file in place, so later runs skip it as well. -/
theorem C10_zero_byte_blocks (m : List String) (mp : List (String × String))
    (t : Option (List String)) (fetch : Report → FetchOut) (reports : List Report)
    (fs : FS) (p : String) :
    loggerDownload (FetchOut.ok 0) p fs = (setFS fs p 0, false, false) ∧
    pathExists (setFS fs p 0) p = true ∧
    getSize (setFS fs p 0) p = some 0 ∧
    (pathExists fs p = true →
      (∀ r ∈ (cefRunCycle m t fetch reports fs).dl, r.file ≠ p) ∧
      (∀ r ∈ (cefRunCycle m t fetch reports fs).tr, r.file ≠ p) ∧
      pathExists (cefRunCycle m t fetch reports fs).fs p = true ∧
      (∀ r ∈ (ecsRunCycle mp t fetch reports fs).dl, r.file ≠ p) ∧
      (∀ r ∈ (ecsRunCycle mp t fetch reports fs).tr, r.file ≠ p) ∧
      pathExists (ecsRunCycle mp t fetch reports fs).fs p = true) := by
  refine ⟨rfl, pathExists_setFS_self fs p 0, getSize_setFS_self fs p 0, ?_⟩
  intro hp
  exact ⟨(cefRunCycle_preserves m t fetch reports fs p hp).2.1,
    (cefRunCycle_preserves m t fetch reports fs p hp).2.2,
    (cefRunCycle_preserves m t fetch reports fs p hp).1,
    (ecsRunCycle_preserves mp t fetch reports fs p hp).2.1,
    (ecsRunCycle_preserves mp t fetch reports fs p hp).2.2,
    (ecsRunCycle_preserves mp t fetch reports fs p hp).1⟩

/-- C10 witness: a zero-byte file left at a concrete path survives a
later cycle over the same listing. -/
theorem C10_witness :
    pathExists (cefRunCycle ["scan"] none (fun _ => FetchOut.ok 9)
        [⟨"i", "z.csv", "scan", "d"⟩] [("z.csv", 0)]).fs "z.csv" = true :=
  ((C10_zero_byte_blocks ["scan"] [] none (fun _ => FetchOut.ok 9)
      [⟨"i", "z.csv", "scan", "d"⟩] [("z.csv", 0)] "z.csv").2.2.2 rfl).2.2.1

end ApiUtils
